import Mathlib

/-!
Verification development for the code symbol indexing and hybrid search engine
of the smem CLI.  The definitions below are a shallow embedding of the
TypeScript/SQL sources: the tiered heuristic symbol extractor
(EnhancedCodeIndexer), the hybrid-search database (HybridSearchDatabase and
its SQL statements), the score fusion of the search-code command handler, and
the sqlite vector backends (VecBackend, VssBackend, UnifiedVectorBackend).
Machine floats are modelled by rationals; SQLite tables are modelled by
association lists; JavaScript strings are modelled by lists of characters.
-/

set_option maxRecDepth 8000

namespace SMem

/-! ## Character and string primitives (JavaScript semantics) -/

/-- Decimal digit test (ASCII 0 through 9). -/
def isDigitCh (c : Char) : Bool := decide (48 ≤ c.toNat ∧ c.toNat ≤ 57)

/-- JavaScript word character class, the regex class backslash-w:
letters, digits and underscore. -/
def isWordChar (c : Char) : Bool := c.isAlpha || isDigitCh c || c = '_'

/-- The opening curly brace character (written by code point). -/
def lbrace : Char := Char.ofNat 123

/-- The closing curly brace character (written by code point). -/
def rbrace : Char := Char.ofNat 125

/-- JavaScript String.trim on a character list: drop whitespace at both ends. -/
def trimChars (l : List Char) : List Char :=
  ((l.dropWhile Char.isWhitespace).reverse.dropWhile Char.isWhitespace).reverse

/-- Match a literal character sequence at the head of the input, returning the
rest of the input on success (the building block for regex literals). -/
def lit : List Char → List Char → Option (List Char)
  | [], rest => some rest
  | _ :: _, [] => none
  | c :: cs, d :: ds => if c = d then lit cs ds else none

/-- Regex backslash-s-plus: at least one whitespace character, consumed greedily. -/
def ws1 : List Char → Option (List Char)
  | [] => none
  | c :: cs => if c.isWhitespace then some (cs.dropWhile Char.isWhitespace) else none

/-- Regex backslash-s-star: any number of whitespace characters. -/
def wsStar (l : List Char) : List Char := l.dropWhile Char.isWhitespace

/-- Regex (backslash-w)+ capture: the longest nonempty run of word characters,
returned together with the rest of the input. -/
def word1 (l : List Char) : Option (List Char × List Char) :=
  let w := l.takeWhile isWordChar
  if w.isEmpty then none else some (w, l.dropWhile isWordChar)

/-- An optional regex group consisting of a keyword followed by at least one
whitespace character, e.g. (export backslash-s-plus)? .  Greedy with
backtracking: first try the group and the continuation, else the continuation
alone. -/
def optKw (kw : List Char) (l : List Char) (k : List Char → Option (List Char)) :
    Option (List Char) :=
  (match lit kw l with
   | some r => match ws1 r with
     | some r2 => k r2
     | none => none
   | none => none).orElse (fun _ => k l)

/-- JavaScript String.includes for a substring, on character lists. -/
def hasSub (sub : List Char) : List Char → Bool
  | [] => sub.isEmpty
  | c :: tl => (lit sub (c :: tl)).isSome || hasSub sub tl

/-! ## Heuristic symbol matchers (EnhancedCodeIndexer.extractTypeScriptSymbols)

Each matcher embeds one of the anchored regexes of the source, applied to the
trimmed line, and returns the captured identifier. -/

/-- Regex of the function branch:
caret (export backslash-s+)? (async backslash-s+)? function backslash-s+ (backslash-w+). -/
def matchFunc (l : List Char) : Option (List Char) :=
  optKw "export".toList l fun r1 =>
  optKw "async".toList r1 fun r2 =>
  match lit "function".toList r2 with
  | none => none
  | some r3 =>
    match ws1 r3 with
    | none => none
    | some r4 => (word1 r4).map (·.1)

/-- Regex of the class branch:
caret (export backslash-s+)? (abstract backslash-s+)? class backslash-s+ (backslash-w+). -/
def matchClass (l : List Char) : Option (List Char) :=
  optKw "export".toList l fun r1 =>
  optKw "abstract".toList r1 fun r2 =>
  match lit "class".toList r2 with
  | none => none
  | some r3 =>
    match ws1 r3 with
    | none => none
    | some r4 => (word1 r4).map (·.1)

/-- Regex of the interface branch:
caret (export backslash-s+)? interface backslash-s+ (backslash-w+). -/
def matchInterface (l : List Char) : Option (List Char) :=
  optKw "export".toList l fun r1 =>
  match lit "interface".toList r1 with
  | none => none
  | some r3 =>
    match ws1 r3 with
    | none => none
    | some r4 => (word1 r4).map (·.1)

/-- Tail of the method regex after the optional access-modifier group:
backslash-s* (async backslash-s+)? (backslash-w+) backslash-s* openparen. -/
def methodTail (r : List Char) : Option (List Char) :=
  let r1 := wsStar r
  let core : List Char → Option (List Char) := fun s =>
    match word1 s with
    | none => none
    | some (w, s2) =>
      match wsStar s2 with
      | '(' :: _ => some w
      | _ => none
  (match lit "async".toList r1 with
   | some a => match ws1 a with
     | some a2 => core a2
     | none => none
   | none => none).orElse (fun _ => core r1)

/-- Regex of the method branch:
caret (public|private|protected|static)? backslash-s* (async backslash-s+)?
(backslash-w+) backslash-s* openparen, with left-to-right alternation and
backtracking to the empty group. -/
def matchMethod (l : List Char) : Option (List Char) :=
  (match lit "public".toList l with
   | some r => methodTail r
   | none => none).orElse fun _ =>
  (match lit "private".toList l with
   | some r => methodTail r
   | none => none).orElse fun _ =>
  (match lit "protected".toList l with
   | some r => methodTail r
   | none => none).orElse fun _ =>
  (match lit "static".toList l with
   | some r => methodTail r
   | none => none).orElse fun _ =>
  methodTail l

/-! ## Block-end search (EnhancedCodeIndexer.findBlockEnd and the Python variant) -/

/-- One line of the brace scan of findBlockEnd: walk the characters updating
the running brace count and the inBlock flag; report success (inr) as soon as
a closing brace brings the count to zero while inside a block. -/
def braceScanLine : List Char → Int → Bool → (Int × Bool) ⊕ Unit
  | [], bc, inB => Sum.inl (bc, inB)
  | c :: tl, bc, inB =>
    if c = lbrace then braceScanLine tl (bc + 1) true
    else if c = rbrace then
      if inB ∧ bc - 1 = 0 then Sum.inr () else braceScanLine tl (bc - 1) inB
    else braceScanLine tl bc inB

/-- The line loop of findBlockEnd over the suffix of the file starting at
index i, threading the brace count and inBlock flag across lines; returns the
index of the line on which the block closes, if any. -/
def findBlockEndGo : List String → Nat → Int → Bool → Option Nat
  | [], _, _, _ => none
  | l :: tl, i, bc, inB =>
    match braceScanLine l.toList bc inB with
    | Sum.inr () => some i
    | Sum.inl (bc2, inB2) => findBlockEndGo tl (i + 1) bc2 inB2

/-- EnhancedCodeIndexer.findBlockEnd: brace counting from the start line; if
no balanced closing brace is found, fall back to
min (startIndex + 50, lines.length - 1). -/
def findBlockEnd (lines : List String) (start : Nat) : Nat :=
  match findBlockEndGo (lines.drop start) start 0 false with
  | some j => j
  | none => min (start + 50) (lines.length - 1)

/-- EnhancedCodeIndexer.getIndentLevel: leading spaces count one, tabs count
four, stop at the first other character. -/
def getIndentLevel : List Char → Nat
  | [] => 0
  | c :: tl =>
    if c = ' ' then 1 + getIndentLevel tl
    else if c = '\t' then 4 + getIndentLevel tl
    else 0

/-- The loop of EnhancedCodeIndexer.findPythonBlockEnd over the lines after
the start line: skip blank lines; the block ends just before the first
non-blank line whose indent does not exceed the start indent. -/
def findPythonBlockEndGo (startIndent : Nat) : List String → Nat → Option Nat
  | [], _ => none
  | l :: tl, i =>
    if trimChars l.toList = [] then findPythonBlockEndGo startIndent tl (i + 1)
    else if getIndentLevel l.toList ≤ startIndent then some (i - 1)
    else findPythonBlockEndGo startIndent tl (i + 1)

/-- EnhancedCodeIndexer.findPythonBlockEnd. -/
def findPythonBlockEnd (lines : List String) (start : Nat) : Nat :=
  if start ≥ lines.length then start
  else
    match findPythonBlockEndGo (getIndentLevel ((lines.drop start).headD "").toList)
        (lines.drop (start + 1)) (start + 1) with
    | some j => j
    | none => lines.length - 1

/-- EnhancedCodeIndexer.isInsidePythonClass: scan the lines above the given
index from nearest to farthest; a class header means inside a class, a
top-level def header means not. -/
def isInsidePythonClass (lines : List String) : Nat → Bool
  | 0 => false
  | j + 1 =>
    let t := trimChars ((lines.drop j).headD "").toList
    if (lit "class ".toList t).isSome then true
    else if (lit "def ".toList t).isSome ∧ getIndentLevel ((lines.drop j).headD "").toList = 0
      then false
    else isInsidePythonClass lines j

/-! ## Symbol records and the heuristic extraction loops -/

/-- Symbol kinds produced by the heuristic extractor. -/
inductive SymKind | function | classKind | interface | method
deriving DecidableEq, Repr

/-- A symbol record emitted by the heuristic extractor, with the 1-based line
span that the source computes (startLine := i + 1, endLine := blockEnd + 1). -/
structure HSym where
  name : List Char
  kind : SymKind
  startLine : Nat
  endLine : Nat
  content : List String
  signature : Option (List Char)
deriving DecidableEq, Repr

/-- The signature slice of the source: trimmed.split(openbrace)[0].trim(). -/
def sigOf (trimmed : List Char) : List Char :=
  trimChars (trimmed.takeWhile (· ≠ lbrace))

/-- JavaScript lines.slice(i, e + 1). -/
def sliceLines (lines : List String) (i e : Nat) : List String :=
  (lines.drop i).take (e + 1 - i)

/-- The symbols pushed for one line of
EnhancedCodeIndexer.extractTypeScriptSymbols: the function, class, interface
and method branches in order, the first match winning (continue), the method
branch guarded by the absence of the word function and of an equals sign and
by the keyword filter. -/
def tsSymbolsAtLine (lines : List String) (i : Nat) (line : String) : List HSym :=
  let trimmed := trimChars line.toList
  match matchFunc trimmed with
  | some w =>
    let e := findBlockEnd lines i
    [⟨w, SymKind.function, i + 1, e + 1, sliceLines lines i e, some (sigOf trimmed)⟩]
  | none =>
  match matchClass trimmed with
  | some w =>
    let e := findBlockEnd lines i
    [⟨w, SymKind.classKind, i + 1, e + 1, sliceLines lines i e, none⟩]
  | none =>
  match matchInterface trimmed with
  | some w =>
    let e := findBlockEnd lines i
    [⟨w, SymKind.interface, i + 1, e + 1, sliceLines lines i e, none⟩]
  | none =>
  match matchMethod trimmed with
  | some w =>
    if ¬ hasSub "function".toList trimmed ∧ ¬ hasSub "=".toList trimmed ∧
        w ∉ ["if".toList, "for".toList, "while".toList, "switch".toList, "catch".toList] then
      let e := findBlockEnd lines i
      [⟨w, SymKind.method, i + 1, e + 1, sliceLines lines i e, some (sigOf trimmed)⟩]
    else []
  | none => []

/-- The index loop of extractTypeScriptSymbols, recursing over the remaining
lines while tracking the current index into the full file. -/
def extractTSFrom (lines : List String) : List String → Nat → List HSym
  | [], _ => []
  | line :: rest, i => tsSymbolsAtLine lines i line ++ extractTSFrom lines rest (i + 1)

/-- EnhancedCodeIndexer.extractTypeScriptSymbols. -/
def extractTypeScriptSymbols (lines : List String) : List HSym :=
  extractTSFrom lines lines 0

/-- Regex caret kw backslash-s+ (backslash-w+): the Python def and class
header patterns. -/
def kwCapture (kw : List Char) (l : List Char) : Option (List Char) :=
  match lit kw l with
  | none => none
  | some r =>
    match ws1 r with
    | none => none
    | some r2 => (word1 r2).map (·.1)

/-- The symbols pushed for one line of
EnhancedCodeIndexer.extractPythonSymbolsHeuristic: a def header (function or
method depending on the enclosing scope) or a class header. -/
def pySymbolsAtLine (lines : List String) (i : Nat) (line : String) : List HSym :=
  let trimmed := trimChars line.toList
  match kwCapture "def".toList trimmed with
  | some w =>
    let e := findPythonBlockEnd lines i
    let k := if isInsidePythonClass lines i then SymKind.method else SymKind.function
    [⟨w, k, i + 1, e + 1, sliceLines lines i e, some trimmed⟩]
  | none =>
  match kwCapture "class".toList trimmed with
  | some w =>
    let e := findPythonBlockEnd lines i
    [⟨w, SymKind.classKind, i + 1, e + 1, sliceLines lines i e, none⟩]
  | none => []

/-- The index loop of extractPythonSymbolsHeuristic. -/
def extractPyFrom (lines : List String) : List String → Nat → List HSym
  | [], _ => []
  | line :: rest, i => pySymbolsAtLine lines i line ++ extractPyFrom lines rest (i + 1)

/-- EnhancedCodeIndexer.extractPythonSymbolsHeuristic. -/
def extractPythonSymbolsHeuristic (lines : List String) : List HSym :=
  extractPyFrom lines lines 0

/-- EnhancedCodeIndexer.extractSymbolsHeuristically: dispatch on the detected
language; unsupported languages yield no symbols. -/
def extractSymbolsHeuristically (lines : List String) (language : String) : List HSym :=
  if language = "typescript" ∨ language = "javascript" then extractTypeScriptSymbols lines
  else if language = "python" then extractPythonSymbolsHeuristic lines
  else []

/-! ## Chunking pipeline (EnhancedCodeIndexer.chunkFileWithTreeSitter) -/

/-- Parse modes recorded in chunk metadata. -/
inductive ParseMode | ast | heuristic | fallback
deriving DecidableEq, Repr

/-- Chunk metadata, restricted to the fields the claims are about. -/
structure ChunkMeta where
  lineStart : Nat
  lineEnd : Nat
  symbolName : Option (List Char)
  parseMode : ParseMode
deriving DecidableEq, Repr

/-- A chunk: its text lines and metadata. -/
structure Chunk where
  text : List String
  meta : ChunkMeta
deriving DecidableEq, Repr

/-- EnhancedCodeIndexer.fallbackToHeuristicChunking: fixed-size line windows
of maxLines lines (the for loop with step maxLines), each window tagged with
its 1-based line span.  The source loop diverges for maxLines = 0; this model
covers the positive step the source always uses (default 200). -/
def fallbackToHeuristicChunking (lines : List String) (maxLines : Nat) : List Chunk :=
  (List.range ((lines.length + maxLines - 1) / maxLines)).map fun j =>
    let i := j * maxLines
    { text := (lines.drop i).take maxLines
      meta := { lineStart := i + 1, lineEnd := min (i + maxLines) lines.length
                symbolName := none, parseMode := ParseMode.heuristic } }

/-- EnhancedCodeIndexer.enhancedHeuristicChunking: extract symbols with the
regex tier; one chunk per symbol when any were found, otherwise fall back to
fixed-size line windows. -/
def enhancedHeuristicChunking (lines : List String) (language : String)
    (maxLines : Nat) : List Chunk :=
  let symbols := extractSymbolsHeuristically lines language
  if symbols.isEmpty then fallbackToHeuristicChunking lines maxLines
  else symbols.map fun s =>
    { text := s.content
      meta := { lineStart := s.startLine, lineEnd := s.endLine
                symbolName := some s.name, parseMode := ParseMode.heuristic } }

/-- EnhancedCodeIndexer.chunkFileWithTreeSitter.  The source returns
enhancedHeuristicChunking unconditionally on its third statement (the comment
there says Tree-sitter is temporarily disabled); every line after that early
return, including the whole Tree-sitter AST branch, is unreachable. -/
def chunkFileWithTreeSitter (lines : List String) (language : String)
    (maxLines : Nat) : List Chunk :=
  enhancedHeuristicChunking lines language maxLines

/-- Extraction tiers named by the spec. -/
inductive Tier | astTier | heuristicTier | fallbackWindowTier
deriving DecidableEq, Repr

/-- The tiers chunkFileWithTreeSitter actually invokes, in invocation order:
the heuristic tier always runs first (the AST tier is dead code behind the
early return), and the fixed-window tier runs exactly when the heuristic tier
produced no symbols. -/
def chunkTiersInvoked (lines : List String) (language : String) : List Tier :=
  if (extractSymbolsHeuristically lines language).isEmpty then
    [Tier.heuristicTier, Tier.fallbackWindowTier]
  else [Tier.heuristicTier]

/-! ## Hybrid search database (HybridSearchSchema.sql and
HybridSearchDatabase.indexFile)

The code_files and code_symbols tables are association lists with the
autoincrement counters made explicit; the UNIQUE(file_id, name, kind,
start_byte) constraint of code_symbols is the conflict target of
upsertSymbol. -/

/-- A row of the code_files table. -/
structure FileRow where
  id : Nat
  path : String
  sha256 : String
deriving DecidableEq, Repr

/-- A row of the code_symbols table. -/
structure SymbolRow where
  id : Nat
  fileId : Nat
  kind : String
  name : String
  startByte : Nat
  endByte : Nat
  startLine : Nat
  endLine : Nat
  signature : Option String
  doc : Option String
  parentSymbol : Option String
  language : Option String
deriving DecidableEq, Repr

/-- The hybrid search database state (the tables indexFile touches; the
embedding and FTS side tables are keyed by the same symbol ids and add
nothing to the claims below). -/
structure CodeDb where
  files : List FileRow
  nextFileId : Nat
  symbols : List SymbolRow
  nextSymbolId : Nat
deriving DecidableEq, Repr

/-- The empty database. -/
def CodeDb.empty : CodeDb := ⟨[], 1, [], 1⟩

/-- A symbol as passed to indexFile (doc and friends already carry the
JavaScript or-null conversion applied at the call site). -/
structure NewSymbol where
  kind : String
  name : String
  startByte : Nat
  endByte : Nat
  startLine : Nat
  endLine : Nat
  signature : Option String
  doc : Option String
  parentSymbol : Option String
  language : Option String
deriving DecidableEq, Repr

/-- The upsertFile statement: INSERT INTO code_files ON CONFLICT(path) DO
UPDATE SET sha256, RETURNING id. -/
def upsertFile (db : CodeDb) (path sha : String) : CodeDb × Nat :=
  match db.files.find? (fun r => r.path == path) with
  | some r =>
    ({ db with files := db.files.map fun f => if f.path == path then { f with sha256 := sha } else f },
     r.id)
  | none =>
    ({ db with files := db.files ++ [⟨db.nextFileId, path, sha⟩],
               nextFileId := db.nextFileId + 1 },
     db.nextFileId)

/-- The conflict target of upsertSymbol: UNIQUE(file_id, name, kind, start_byte). -/
def symKeyMatches (r : SymbolRow) (fileId : Nat) (s : NewSymbol) : Bool :=
  r.fileId == fileId && r.name == s.name && r.kind == s.kind && r.startByte == s.startByte

/-- The DO UPDATE arm of upsertSymbol applied to one row: rows matching the
conflict key receive the new end_byte, end_line, signature, parent_symbol and
language, and doc = COALESCE(excluded.doc, old.doc); other rows are
untouched.  Note that start_line is not in the update list. -/
def updateRow (fileId : Nat) (s : NewSymbol) (q : SymbolRow) : SymbolRow :=
  if symKeyMatches q fileId s then
    { q with endByte := s.endByte, endLine := s.endLine,
             signature := s.signature,
             doc := match s.doc with | some d => some d | none => q.doc,
             parentSymbol := s.parentSymbol, language := s.language }
  else q

/-- The upsertSymbol statement: INSERT INTO code_symbols ON
CONFLICT(file_id, name, kind, start_byte) DO UPDATE, RETURNING id. -/
def upsertSymbol (db : CodeDb) (fileId : Nat) (s : NewSymbol) : CodeDb × Nat :=
  match db.symbols.find? (fun r => symKeyMatches r fileId s) with
  | some r =>
    ({ db with symbols := db.symbols.map (updateRow fileId s) }, r.id)
  | none =>
    ({ db with symbols := db.symbols ++
        [⟨db.nextSymbolId, fileId, s.kind, s.name, s.startByte, s.endByte,
          s.startLine, s.endLine, s.signature, s.doc, s.parentSymbol, s.language⟩],
               nextSymbolId := db.nextSymbolId + 1 },
     db.nextSymbolId)

/-- The symbol loop of indexFile. -/
def indexFileLoop (db : CodeDb) (fileId : Nat) : List NewSymbol → CodeDb
  | [] => db
  | s :: rest => indexFileLoop (upsertSymbol db fileId s).1 fileId rest

/-- HybridSearchDatabase.indexFile: inside one transaction, upsert the file
row and then upsert each extracted symbol; returns the new state, the file id
and the symbol count.  The whole body is a single atomic state transition (the
source wraps it in db.transaction). -/
def indexFile (db : CodeDb) (path sha : String) (symbols : List NewSymbol) :
    CodeDb × Nat × Nat :=
  let (db1, fileId) := upsertFile db path sha
  (indexFileLoop db1 fileId symbols, fileId, symbols.length)

/-- The live symbol keys of a file: the (name, kind, start_byte) triples of
the code_symbols rows attached to the file. -/
def liveKeys (db : CodeDb) (fileId : Nat) : List (String × String × Nat) :=
  (db.symbols.filter (fun r => r.fileId == fileId)).map fun r => (r.name, r.kind, r.startByte)

/-! ## Score fusion

Two fusion sites exist in the source: the SQL joined CTE of
HybridSearchDatabase.hybridSearchStmt, and the in-process re-ranking of the
search-code command handler (handleSearchCode). -/

/-- The text_norm CTE: text_score = 1.0 / (1.0 + bm25_raw). -/
def bm25Norm (raw : ℚ) : ℚ := 1 / (1 + raw)

/-- The vec_norm CTE: vec_score = 1.0 / (1.0 + distance). -/
def distNorm (d : ℚ) : ℚ := 1 / (1 + d)

/-- The LEFT JOIN lookup of a normalized score for a candidate id: the raw
hit for the id, if any, passed through the normalization. -/
def lookupNorm (f : ℚ → ℚ) (hits : List (Nat × ℚ)) (id : Nat) : Option ℚ :=
  (hits.find? (fun r => r.1 == id)).map (fun r => f r.2)

/-- The hybrid_score expression of the joined CTE:
alpha * COALESCE(vec_score, 0) + (1 - alpha) * COALESCE(text_score, 0),
where textHits pairs candidate ids with bm25_raw and vecHits pairs candidate
ids with vector distance. -/
def hybridScoreSQL (alpha : ℚ) (textHits vecHits : List (Nat × ℚ)) (id : Nat) : ℚ :=
  alpha * (lookupNorm distNorm vecHits id).getD 0
    + (1 - alpha) * (lookupNorm bm25Norm textHits id).getD 0

/-- JavaScript a || b on numbers: b when a is null, undefined or zero. -/
def jsOrElse (a : Option ℚ) (b : ℚ) : ℚ :=
  match a with
  | some v => if v = 0 then b else v
  | none => b

/-- The per-result fusion of handleSearchCode in hybrid mode:
vDistance = vssMap.get(id) || 999, cosineSim = max(0, 1 / (1 + vDistance)),
fusedScore = 0.5 * (relevance || 0) + 0.5 * cosineSim. -/
def fuseRelevance (relevance : Option ℚ) (vssDistance : Option ℚ) : ℚ :=
  let vDistance := jsOrElse vssDistance 999
  let cosineSim := max 0 (1 / (1 + vDistance))
  let bm25Score := jsOrElse relevance 0
  (1 / 2) * bm25Score + (1 / 2) * cosineSim

/-! ## Decimal key codec

VecBackend stores the external memory id inside the string key
memory_(id) and recovers it in queryNearest with
parseInt(key.replace(memory_, empty)).  The codec below models the decimal
rendering of the template literal and the digit parsing of parseInt, on
character lists. -/

/-- One decimal digit character, by code point (only ever applied to values
below ten). -/
def digitCh (d : Nat) : Char := Char.ofNat (48 + d)

/-- The numeric value of a decimal digit character, none otherwise. -/
def digitVal (c : Char) : Option Nat :=
  if 48 ≤ c.toNat ∧ c.toNat ≤ 57 then some (c.toNat - 48) else none

/-- Decimal rendering of a natural number, most significant digit first (the
template-literal rendering of a nonnegative integer id). -/
def natDigits (n : Nat) : List Char :=
  if _h : n < 10 then [digitCh n]
  else natDigits (n / 10) ++ [digitCh (n % 10)]
decreasing_by exact Nat.div_lt_self (by omega) (by norm_num)

/-- parseInt on a digit string: fold the leading run of decimal digits; none
when there is no leading digit (NaN). -/
def parseDigits (l : List Char) : Option Nat :=
  if (l.takeWhile (fun c => (digitVal c).isSome)).isEmpty then none
  else some ((l.takeWhile (fun c => (digitVal c).isSome)).foldl
    (fun a c => a * 10 + (digitVal c).getD 0) 0)

/-- The key written by VecBackend.upsert for external id n. -/
def memKey (n : Nat) : List Char := "memory_".toList ++ natDigits n

/-- JavaScript String.replace with the empty string: delete the first
occurrence of the pattern. -/
def replaceFirst (sub : List Char) : List Char → List Char
  | [] => []
  | c :: tl =>
    match lit sub (c :: tl) with
    | some rest => rest
    | none => c :: replaceFirst sub tl

/-- The id recovery of VecBackend.queryNearest:
parseInt(key.replace(memory_, empty)); none models NaN. -/
def decodeKey (k : List Char) : Option Nat :=
  parseDigits (replaceFirst "memory_".toList k)

/-! ## Vector backends (VectorBackends source file)

Embeddings are lists of rationals; the dimension of a vector is its length.
The memory_items key-mapping table, the vec0 virtual table and the vss0
virtual table are association lists.  Errors that the source catches and
swallows leave no trace beyond the state change the catch block performs; an
error the source re-throws is an explicit outcome. -/

/-- The memory_items table: rows (id, key) plus the INTEGER PRIMARY KEY
autoincrement counter (SQLite rowids start at 1). -/
structure ItemsTable where
  rows : List (Nat × List Char)
  nextId : Nat
deriving DecidableEq, Repr

/-- The empty memory_items table. -/
def ItemsTable.empty : ItemsTable := ⟨[], 1⟩

/-- SELECT id FROM memory_items WHERE key = ?. -/
def ItemsTable.findId (t : ItemsTable) (k : List Char) : Option Nat :=
  (t.rows.find? (fun r => r.2 == k)).map (fun r => r.1)

/-- SELECT key FROM memory_items WHERE id = ? (the JOIN direction used by
queryNearest). -/
def ItemsTable.findKey (t : ItemsTable) (i : Nat) : Option (List Char) :=
  (t.rows.find? (fun r => r.1 == i)).map (fun r => r.2)

namespace VecBackend

/-- VecBackend.getOrCreateIdForKey: INSERT ... ON CONFLICT(key) DO UPDATE
RETURNING id (get-or-create; the payload update does not affect the model). -/
def getOrCreateIdForKey (t : ItemsTable) (k : List Char) : ItemsTable × Nat :=
  match t.findId k with
  | some i => (t, i)
  | none => (⟨t.rows ++ [(t.nextId, k)], t.nextId + 1⟩, t.nextId)

/-- State of a VecBackend: the loaded flag, the dimension recorded by
ensureTable, and the database tables it owns.  vecTableDim is the dimension
baked into the vec0 virtual table when it was first created (CREATE VIRTUAL
TABLE IF NOT EXISTS never alters an existing table). -/
structure State where
  loaded : Bool
  dim : Option Nat
  items : ItemsTable
  vecTableDim : Option Nat
  vecRows : List (Nat × List ℚ)
deriving DecidableEq, Repr

/-- A fresh backend right after a successful extension load. -/
def loadedFresh : State :=
  ⟨true, none, ItemsTable.empty, none, []⟩

/-- VecBackend.ensureTable: no-op when not loaded or when the recorded
dimension already equals the argument; otherwise create the tables if absent
and record the argument as the current dimension. -/
def ensureTable (st : State) (dim : Nat) : State :=
  if ¬ st.loaded then st
  else if st.dim = some dim then st
  else
    { st with vecTableDim := match st.vecTableDim with
                             | some d0 => some d0
                             | none => some dim,
              dim := some dim }

/-- INSERT OR REPLACE on an association list keyed by the first component. -/
def listUpsert (rows : List (Nat × List ℚ)) (i : Nat) (v : List ℚ) :
    List (Nat × List ℚ) :=
  if rows.any (fun r => r.1 == i) then
    rows.map (fun r => if r.1 == i then (i, v) else r)
  else rows ++ [(i, v)]

/-- Outcome of an upsert call as the caller observes it: either the call
returns normally, or it throws the dimension error that the catch block of
VecBackend.upsert re-throws. -/
inductive UpsertOutcome | completed | threwDimension
deriving DecidableEq, Repr

/-- VecBackend.upsert.  Silent no-op when not loaded or no dimension is
recorded.  assertDim throws when the vector length differs from the recorded
dimension, and the catch block re-throws that error (its message contains the
word dimension).  A negative id throws an invalid-id error that the catch
block swallows.  Otherwise the external id is resolved through the key
mapping and the vector is written under the internal integer id. -/
def upsert (st : State) (id : Int) (v : List ℚ) : State × UpsertOutcome :=
  if ¬ st.loaded then (st, UpsertOutcome.completed)
  else
    match st.dim with
    | none => (st, UpsertOutcome.completed)
    | some d =>
      if v.length ≠ d then (st, UpsertOutcome.threwDimension)
      else if id < 0 then (st, UpsertOutcome.completed)
      else
        let key := memKey id.toNat
        let (items2, mapped) := getOrCreateIdForKey st.items key
        ({ st with items := items2, vecRows := listUpsert st.vecRows mapped v },
         UpsertOutcome.completed)

/-- VecBackend.count: SELECT COUNT(*) FROM the vec0 table (0 when not
loaded). -/
def count (st : State) : Nat :=
  if st.loaded then st.vecRows.length else 0

/-- Squared L2 distance, the vec0 MATCH metric, on the zipped coordinates. -/
def l2sq (q v : List ℚ) : ℚ :=
  ((q.zip v).map (fun p => (p.1 - p.2) * (p.1 - p.2))).sum

/-- Insertion into a list sorted by ascending distance (ORDER BY distance). -/
def insertByDist (x : List Char × ℚ) : List (List Char × ℚ) → List (List Char × ℚ)
  | [] => [x]
  | y :: tl => if x.2 ≤ y.2 then x :: y :: tl else y :: insertByDist x tl

/-- ORDER BY distance as an insertion sort. -/
def sortByDist : List (List Char × ℚ) → List (List Char × ℚ)
  | [] => []
  | x :: tl => insertByDist x (sortByDist tl)

/-- VecBackend.queryNearest: empty on a not-loaded backend, on a missing
dimension or on a query length mismatch (assertDim throws and the catch
returns an empty list); otherwise join the vector rows with memory_items,
order by distance, truncate to topk, and map each key back to the external id
with parseInt(key.replace(memory_, empty)).  The recovered id is none when
the key does not parse (NaN). -/
def queryNearest (st : State) (q : List ℚ) (topk : Nat) :
    List (Option Nat × ℚ) :=
  if ¬ st.loaded then []
  else
    match st.dim with
    | none => []
    | some d =>
      if q.length ≠ d then []
      else
        let joined := st.vecRows.filterMap fun r =>
          (st.items.findKey r.1).map (fun k => (k, l2sq q r.2))
        ((sortByDist joined).take topk).map fun r => (decodeKey r.1, r.2)

end VecBackend

namespace VssBackend

/-- State of a VssBackend: loaded flag, recorded dimension, the dimension
baked into the vss0 virtual table at creation, and its rows keyed by rowid. -/
structure State where
  loaded : Bool
  dim : Option Nat
  vssTableDim : Option Nat
  rows : List (Int × List ℚ)
deriving DecidableEq, Repr

/-- A fresh backend right after a successful extension load. -/
def loadedFresh : State := ⟨true, none, none, []⟩

/-- VssBackend.ensureTable: same shape as the vec variant. -/
def ensureTable (st : State) (dim : Nat) : State :=
  if ¬ st.loaded then st
  else if st.dim = some dim then st
  else
    { st with vssTableDim := match st.vssTableDim with
                             | some d0 => some d0
                             | none => some dim,
              dim := some dim }

/-- INSERT OR REPLACE keyed by rowid. -/
def rowUpsert (rows : List (Int × List ℚ)) (i : Int) (v : List ℚ) :
    List (Int × List ℚ) :=
  if rows.any (fun r => r.1 == i) then
    rows.map (fun r => if r.1 == i then (i, v) else r)
  else rows ++ [(i, v)]

/-- VssBackend.upsert.  Silent no-op when not loaded or no dimension is
recorded.  The body performs no dimension validation: the vector buffer is
written under the given rowid whatever its length; and the catch block
swallows every error (setting loaded to false), so no call ever throws.  The
outcome is therefore always completed. -/
def upsert (st : State) (id : Int) (v : List ℚ) :
    State × VecBackend.UpsertOutcome :=
  if ¬ st.loaded then (st, VecBackend.UpsertOutcome.completed)
  else
    match st.dim with
    | none => (st, VecBackend.UpsertOutcome.completed)
    | some _ =>
      ({ st with rows := rowUpsert st.rows id v }, VecBackend.UpsertOutcome.completed)

/-- VssBackend.count. -/
def count (st : State) : Nat :=
  if st.loaded then st.rows.length else 0

/-- VssBackend.queryNearest: vss_search over the rows, ordered by distance,
limited to topk; rowids are returned directly as the result ids. -/
def queryNearest (st : State) (q : List ℚ) (topk : Nat) : List (Int × ℚ) :=
  if ¬ st.loaded then []
  else
    match st.dim with
    | none => []
    | some _ =>
      let scored := st.rows.map fun r => (r.1, VecBackend.l2sq q r.2)
      (sortRows scored).take topk
where
  insertRow (x : Int × ℚ) : List (Int × ℚ) → List (Int × ℚ)
    | [] => [x]
    | y :: tl => if x.2 ≤ y.2 then x :: y :: tl else y :: insertRow x tl
  sortRows : List (Int × ℚ) → List (Int × ℚ)
    | [] => []
    | x :: tl => insertRow x (sortRows tl)

end VssBackend

/-! ## Backend probing and selection (tryLoad and UnifiedVectorBackend)

The file-system and loader environment is abstracted by Boolean flags: which
binaries exist, whether loadExtension succeeds on them, and whether the
database raises during the vec self-test.  Each tryLoad returns the loaded
backend (or none) together with the ordered trace of probe actions it
performed. -/

/-- Platforms distinguished by the probing code (os.platform()). -/
inductive Platform | win32 | darwin | linux
deriving DecidableEq, Repr

/-- The probe environment. -/
structure ProbeEnv where
  platform : Platform
  manualVecExists : Bool
  manualVecLoads : Bool
  npmVecExists : Bool
  npmVecLoads : Bool
  vecSelfTestDbOk : Bool
  vector0Exists : Bool
  vector0Loads : Bool
  vssExists : Bool
  vssLoads : Bool
deriving DecidableEq, Repr

/-- Probe actions, in the order tryLoad performs them. -/
inductive ProbeEvent
  | loadVecManual | loadVecNpm | vecSelfTest | loadVector0 | loadVss
deriving DecidableEq, Repr

namespace VecBackend

/-- The synthetic self-test vector: new Float32Array(384).fill(0.1). -/
def testVec : List ℚ := List.replicate 384 (1 / 10)

/-- The self-test of VecBackend.tryLoad, run immediately after a successful
extension load: ensureTable(384), upsert the synthetic vector under the
sentinel id 999999, read the count.  A database exception anywhere in the
block (vecSelfTestDbOk = false) is caught and sets loaded to false; a count
below one only logs a warning and changes nothing. -/
def runSelfTest (env : ProbeEnv) (st : State) : State :=
  if env.vecSelfTestDbOk then
    let st1 := ensureTable st 384
    let st2 := (upsert st1 999999 testVec).1
    st2
  else { st with loaded := false }

/-- VecBackend.tryLoad.  The manual binary path is probed first: if the file
exists and loadExtension succeeds, the self-test decides between returning
the backend and returning none — the npm path is not probed after a failed
self-test, because the source returns from inside the manual branch.  Only a
loadExtension exception (or a missing file) falls through to the npm branch,
which repeats the same load-and-self-test sequence. -/
def tryLoad (env : ProbeEnv) : Option State × List ProbeEvent :=
  if env.manualVecExists then
    if env.manualVecLoads then
      let st := runSelfTest env loadedFresh
      (if st.loaded then some st else none,
       [ProbeEvent.loadVecManual, ProbeEvent.vecSelfTest])
    else
      -- loadExtension threw; the outer catch logs and execution reaches the
      -- npm branch
      if env.npmVecExists then
        if env.npmVecLoads then
          let st := runSelfTest env loadedFresh
          (if st.loaded then some st else none,
           [ProbeEvent.loadVecManual, ProbeEvent.loadVecNpm, ProbeEvent.vecSelfTest])
        else (none, [ProbeEvent.loadVecManual, ProbeEvent.loadVecNpm])
      else (none, [ProbeEvent.loadVecManual])
  else
    if env.npmVecExists then
      if env.npmVecLoads then
        let st := runSelfTest env loadedFresh
        (if st.loaded then some st else none,
         [ProbeEvent.loadVecNpm, ProbeEvent.vecSelfTest])
      else (none, [ProbeEvent.loadVecNpm])
    else (none, [])

end VecBackend

namespace VssBackend

/-- VssBackend.tryLoad.  On non-Windows platforms the vector0 dependency must
exist and load, otherwise tryLoad returns none.  Then, if the vss0 binary
exists and loads, the backend is returned as loaded immediately: no self-test
of any kind runs after the load. -/
def tryLoad (env : ProbeEnv) : Option State × List ProbeEvent :=
  if env.platform ≠ Platform.win32 then
    if env.vector0Exists then
      if env.vector0Loads then
        if env.vssExists then
          if env.vssLoads then (some loadedFresh, [ProbeEvent.loadVector0, ProbeEvent.loadVss])
          else (none, [ProbeEvent.loadVector0, ProbeEvent.loadVss])
        else (none, [ProbeEvent.loadVector0])
      else (none, [ProbeEvent.loadVector0])
    else (none, [])
  else
    if env.vssExists then
      if env.vssLoads then (some loadedFresh, [ProbeEvent.loadVss])
      else (none, [ProbeEvent.loadVss])
    else (none, [])

end VssBackend

/-- The backend actually selected by UnifiedVectorBackend. -/
inductive ActiveBackend
  | vec (st : VecBackend.State)
  | vss (st : VssBackend.State)
deriving DecidableEq, Repr

/-- State of a UnifiedVectorBackend: the selected backend, if any. -/
structure UnifiedState where
  active : Option ActiveBackend
deriving DecidableEq, Repr

namespace UnifiedVectorBackend

/-- UnifiedVectorBackend.tryLoad: on win32 probe sqlite-vec only; on other
platforms probe sqlite-vss first and fall back to sqlite-vec; when no native
candidate loads, the unified backend is returned with no active backend. -/
def tryLoad (env : ProbeEnv) : UnifiedState × List ProbeEvent :=
  match env.platform with
  | Platform.win32 =>
    match VecBackend.tryLoad env with
    | (some st, evs) => (⟨some (ActiveBackend.vec st)⟩, evs)
    | (none, evs) => (⟨none⟩, evs)
  | _ =>
    match VssBackend.tryLoad env with
    | (some st, evs) => (⟨some (ActiveBackend.vss st)⟩, evs)
    | (none, evs) =>
      match VecBackend.tryLoad env with
      | (some st, evs2) => (⟨some (ActiveBackend.vec st)⟩, evs ++ evs2)
      | (none, evs2) => (⟨none⟩, evs ++ evs2)

/-- UnifiedVectorBackend.isAvailable: activeBackend?.isAvailable() ?? false. -/
def isAvailable (u : UnifiedState) : Bool :=
  match u.active with
  | none => false
  | some (ActiveBackend.vec st) => st.loaded
  | some (ActiveBackend.vss st) => st.loaded

/-- UnifiedVectorBackend.getBackendType: activeBackend?.backend ?? local-js. -/
def getBackendType (u : UnifiedState) : String :=
  match u.active with
  | none => "local-js"
  | some (ActiveBackend.vec _) => "vec"
  | some (ActiveBackend.vss _) => "vss"

/-- UnifiedVectorBackend.upsert: delegate to the active backend, no-op
without one. -/
def upsert (u : UnifiedState) (id : Int) (v : List ℚ) :
    UnifiedState × VecBackend.UpsertOutcome :=
  match u.active with
  | none => (u, VecBackend.UpsertOutcome.completed)
  | some (ActiveBackend.vec st) =>
    let (st2, o) := VecBackend.upsert st id v
    (⟨some (ActiveBackend.vec st2)⟩, o)
  | some (ActiveBackend.vss st) =>
    let (st2, o) := VssBackend.upsert st id v
    (⟨some (ActiveBackend.vss st2)⟩, o)

/-- UnifiedVectorBackend.queryNearest: activeBackend?.queryNearest(...) ?? [];
ids are reported as optional integers (none models the NaN a vec key that
fails to parse would produce). -/
def queryNearest (u : UnifiedState) (q : List ℚ) (topk : Nat) :
    List (Option Int × ℚ) :=
  match u.active with
  | none => []
  | some (ActiveBackend.vec st) =>
    (VecBackend.queryNearest st q topk).map fun r => (r.1.map Int.ofNat, r.2)
  | some (ActiveBackend.vss st) =>
    (VssBackend.queryNearest st q topk).map fun r => (some r.1, r.2)

/-- UnifiedVectorBackend.count: activeBackend?.count() ?? 0. -/
def count (u : UnifiedState) : Nat :=
  match u.active with
  | none => 0
  | some (ActiveBackend.vec st) => VecBackend.count st
  | some (ActiveBackend.vss st) => VssBackend.count st

end UnifiedVectorBackend

/-! ## Lemmas about the block-end searches -/

/-- A successful brace scan starting at index i ends at an index within the
scanned suffix. -/
theorem findBlockEndGo_bounds :
    ∀ (ls : List String) (i : Nat) (bc : Int) (inB : Bool) (j : Nat),
      findBlockEndGo ls i bc inB = some j → i ≤ j ∧ j < i + ls.length := by
  intro ls
  induction ls with
  | nil => intro i bc inB j h; simp [findBlockEndGo] at h
  | cons l tl ih =>
    intro i bc inB j h
    rw [findBlockEndGo] at h
    rcases hscan : braceScanLine l.toList bc inB with ⟨bc2, inB2⟩ | u
    · rw [hscan] at h
      have := ih (i + 1) bc2 inB2 j h
      simp only [List.length_cons]
      omega
    · rw [hscan] at h
      cases u
      simp only [Option.some.injEq] at h
      subst h
      simp only [List.length_cons]
      omega

/-- findBlockEnd stays inside the file: between the start index and the last
line index. -/
theorem findBlockEnd_bounds (lines : List String) (start : Nat)
    (h : start < lines.length) :
    start ≤ findBlockEnd lines start ∧ findBlockEnd lines start + 1 ≤ lines.length := by
  rcases hgo : findBlockEndGo (lines.drop start) start 0 false with _ | j
  · simp only [findBlockEnd, hgo]
    constructor
    · exact Nat.le_min.2 ⟨by omega, by omega⟩
    · have := Nat.min_le_right (start + 50) (lines.length - 1)
      omega
  · simp only [findBlockEnd, hgo]
    have := findBlockEndGo_bounds (lines.drop start) start 0 false j hgo
    rw [List.length_drop] at this
    omega

/-- A successful python block-end scan starting after index i ends within the
scanned suffix and not before i - 1. -/
theorem findPythonBlockEndGo_bounds (s : Nat) :
    ∀ (ls : List String) (i : Nat) (j : Nat),
      findPythonBlockEndGo s ls i = some j → i - 1 ≤ j ∧ j + 1 < i + ls.length + 1 := by
  intro ls
  induction ls with
  | nil => intro i j h; simp [findPythonBlockEndGo] at h
  | cons l tl ih =>
    intro i j h
    rw [findPythonBlockEndGo] at h
    split at h
    · have := ih (i + 1) j h
      simp only [List.length_cons]
      omega
    · split at h
      · simp only [Option.some.injEq] at h
        subst h
        simp only [List.length_cons]
        omega
      · have := ih (i + 1) j h
        simp only [List.length_cons]
        omega

/-- findPythonBlockEnd stays inside the file. -/
theorem findPythonBlockEnd_bounds (lines : List String) (start : Nat)
    (h : start < lines.length) :
    start ≤ findPythonBlockEnd lines start ∧
      findPythonBlockEnd lines start + 1 ≤ lines.length := by
  rcases hgo : findPythonBlockEndGo (getIndentLevel ((lines.drop start).headD "").toList)
      (lines.drop (start + 1)) (start + 1) with _ | j
  · simp only [findPythonBlockEnd, hgo, if_neg (by omega : ¬ start ≥ lines.length)]
    constructor <;> omega
  · simp only [findPythonBlockEnd, hgo, if_neg (by omega : ¬ start ≥ lines.length)]
    have := findPythonBlockEndGo_bounds (getIndentLevel ((lines.drop start).headD "").toList)
      (lines.drop (start + 1)) (start + 1) j hgo
    rw [List.length_drop] at this
    omega

/-! ## Lemmas about the heuristic extraction loops -/

/-- Every symbol a TypeScript line scan emits spans from its own line to the
block end computed for that line. -/
theorem tsSymbolsAtLine_shape {lines : List String} {i : Nat} {line : String}
    {s : HSym} (hs : s ∈ tsSymbolsAtLine lines i line) :
    s.startLine = i + 1 ∧ s.endLine = findBlockEnd lines i + 1 := by
  simp only [tsSymbolsAtLine] at hs
  split at hs
  · simp only [List.mem_singleton] at hs; subst hs; exact ⟨rfl, rfl⟩
  · split at hs
    · simp only [List.mem_singleton] at hs; subst hs; exact ⟨rfl, rfl⟩
    · split at hs
      · simp only [List.mem_singleton] at hs; subst hs; exact ⟨rfl, rfl⟩
      · split at hs
        · split at hs
          · simp only [List.mem_singleton] at hs; subst hs; exact ⟨rfl, rfl⟩
          · simp at hs
        · simp at hs

/-- Every symbol a Python line scan emits spans from its own line to the
python block end computed for that line. -/
theorem pySymbolsAtLine_shape {lines : List String} {i : Nat} {line : String}
    {s : HSym} (hs : s ∈ pySymbolsAtLine lines i line) :
    s.startLine = i + 1 ∧ s.endLine = findPythonBlockEnd lines i + 1 := by
  simp only [pySymbolsAtLine] at hs
  split at hs
  · simp only [List.mem_singleton] at hs; subst hs; exact ⟨rfl, rfl⟩
  · split at hs
    · simp only [List.mem_singleton] at hs; subst hs; exact ⟨rfl, rfl⟩
    · simp at hs

/-- Line-span bounds for the TypeScript extraction loop: starting the loop at
index i with the matching suffix of the file, every emitted symbol has a
1-based span inside the file. -/
theorem extractTSFrom_bounds (lines : List String) :
    ∀ (rem : List String) (i : Nat), i + rem.length = lines.length →
      ∀ s ∈ extractTSFrom lines rem i,
        1 ≤ s.startLine ∧ s.startLine ≤ s.endLine ∧ s.endLine ≤ lines.length := by
  intro rem
  induction rem with
  | nil => intro i _ s hs; simp [extractTSFrom] at hs
  | cons line tl ih =>
    intro i hlen s hs
    rw [extractTSFrom, List.mem_append] at hs
    rcases hs with hs | hs
    · obtain ⟨h1, h2⟩ := tsSymbolsAtLine_shape hs
      have hi : i < lines.length := by simp only [List.length_cons] at hlen; omega
      have := findBlockEnd_bounds lines i hi
      omega
    · exact ih (i + 1) (by simp only [List.length_cons] at hlen; omega) s hs

/-- Line-span bounds for the Python extraction loop. -/
theorem extractPyFrom_bounds (lines : List String) :
    ∀ (rem : List String) (i : Nat), i + rem.length = lines.length →
      ∀ s ∈ extractPyFrom lines rem i,
        1 ≤ s.startLine ∧ s.startLine ≤ s.endLine ∧ s.endLine ≤ lines.length := by
  intro rem
  induction rem with
  | nil => intro i _ s hs; simp [extractPyFrom] at hs
  | cons line tl ih =>
    intro i hlen s hs
    rw [extractPyFrom, List.mem_append] at hs
    rcases hs with hs | hs
    · obtain ⟨h1, h2⟩ := pySymbolsAtLine_shape hs
      have hi : i < lines.length := by simp only [List.length_cons] at hlen; omega
      have := findPythonBlockEnd_bounds lines i hi
      omega
    · exact ih (i + 1) (by simp only [List.length_cons] at hlen; omega) s hs

/-! ## Claim C5: extraction tier order -/

/-- C5, counterexample.  The claim states that symbol extraction attempts the
AST tier first on every file.  On this file the heuristic tier finds a
symbol, yet the invocation trace of chunkFileWithTreeSitter is exactly the
heuristic tier: the AST tier is never invoked (the source returns
enhancedHeuristicChunking unconditionally before any Tree-sitter code). -/
theorem C5_counterexample :
    chunkTiersInvoked ["function f()\x7b\x7d"] "typescript" = [Tier.heuristicTier] ∧
    Tier.astTier ∉ chunkTiersInvoked ["function f()\x7b\x7d"] "typescript" := by
  constructor
  · rfl
  · decide

/-- C5, amended.  chunkFileWithTreeSitter never invokes the AST tier (it is
dead code behind an unconditional early return); the heuristic regex tier
always runs first, and the fixed-window tier runs exactly when the heuristic
tier yields zero symbols. -/
theorem C5_tier_policy (lines : List String) (language : String) :
    Tier.astTier ∉ chunkTiersInvoked lines language ∧
    ((extractSymbolsHeuristically lines language).isEmpty = false →
      chunkTiersInvoked lines language = [Tier.heuristicTier]) ∧
    ((extractSymbolsHeuristically lines language).isEmpty = true →
      chunkTiersInvoked lines language = [Tier.heuristicTier, Tier.fallbackWindowTier]) := by
  unfold chunkTiersInvoked
  rcases h : (extractSymbolsHeuristically lines language).isEmpty with _ | _
  · refine ⟨by simp, fun _ => by simp, fun hc => by simp at hc⟩
  · refine ⟨by simp, fun hc => by simp at hc, fun _ => by simp⟩

/-- C5, witness for the amended theorem at concrete inputs: a file whose
heuristic scan finds a function symbol, and a file with none. -/
theorem C5_tier_policy_witness :
    chunkTiersInvoked ["function f()\x7b\x7d"] "typescript" = [Tier.heuristicTier] ∧
    chunkTiersInvoked ["plain text"] "typescript" =
      [Tier.heuristicTier, Tier.fallbackWindowTier] :=
  ⟨(C5_tier_policy ["function f()\x7b\x7d"] "typescript").2.1 (by decide),
   (C5_tier_policy ["plain text"] "typescript").2.2 (by decide)⟩

/-! ## Claim C6: symbol line-span bounds -/

/-- C6, counterexample.  The claim requires both line numbers of every
emitted symbol to lie in the half-open range [0, fileLineCount).  The
extractor emits 1-based line numbers: on a one-line file it emits a symbol
with endLine = 1, and 1 is not less than the line count 1. -/
theorem C6_counterexample :
    (extractSymbolsHeuristically ["function f()\x7b\x7d"] "typescript").map HSym.endLine
      = [1] ∧
    ¬ ((1 : Nat) < 1) := by
  constructor
  · rfl
  · decide

/-- C6, amended.  Every symbol emitted by the heuristic extractor (the only
live tier; the line spans are 1-based) satisfies
1 ≤ startLine ≤ endLine ≤ fileLineCount; no symbol with an out-of-range span
is ever emitted. -/
theorem C6_symbol_bounds (lines : List String) (language : String) (s : HSym)
    (hs : s ∈ extractSymbolsHeuristically lines language) :
    1 ≤ s.startLine ∧ s.startLine ≤ s.endLine ∧ s.endLine ≤ lines.length := by
  unfold extractSymbolsHeuristically at hs
  split at hs
  · exact extractTSFrom_bounds lines lines 0 (by omega) s hs
  · split at hs
    · exact extractPyFrom_bounds lines lines 0 (by omega) s hs
    · simp at hs

/-- C6, witness: the bounds theorem applied to the function symbol extracted
from a concrete three-line file. -/
theorem C6_symbol_bounds_witness :
    (⟨"foo".toList, SymKind.function, 1, 3,
        ["function foo() \x7b", "  return 1;", "\x7d"],
        some "function foo()".toList⟩ : HSym) ∈
      extractSymbolsHeuristically ["function foo() \x7b", "  return 1;", "\x7d"] "typescript" ∧
    (1 ≤ 1 ∧ 1 ≤ 3 ∧ 3 ≤
      (["function foo() \x7b", "  return 1;", "\x7d"] : List String).length) :=
  ⟨by decide,
   C6_symbol_bounds ["function foo() \x7b", "  return 1;", "\x7d"] "typescript"
     ⟨"foo".toList, SymKind.function, 1, 3,
        ["function foo() \x7b", "  return 1;", "\x7d"],
        some "function foo()".toList⟩ (by decide)⟩

/-! ## Claim C2: re-index replacement semantics -/

/-- Membership in the live key set of a file, unfolded to an existential over
the symbol rows. -/
theorem liveKeys_mem (db : CodeDb) (fid : Nat) (k : String × String × Nat) :
    k ∈ liveKeys db fid ↔
      ∃ r ∈ db.symbols, r.fileId = fid ∧ (r.name, r.kind, r.startByte) = k := by
  unfold liveKeys
  simp only [List.mem_map, List.mem_filter, beq_iff_eq]
  constructor
  · rintro ⟨r, ⟨hr, hfid⟩, hk⟩
    exact ⟨r, hr, hfid, hk⟩
  · rintro ⟨r, hr, hfid, hk⟩
    exact ⟨r, ⟨hr, hfid⟩, hk⟩

/-- The update branch of upsertSymbol does not change the conflict-key fields
of any row. -/
theorem upsertSymbol_update_proj (fileId : Nat) (s : NewSymbol) (q : SymbolRow) :
    (updateRow fileId s q).fileId = q.fileId ∧ (updateRow fileId s q).name = q.name ∧
      (updateRow fileId s q).kind = q.kind ∧
      (updateRow fileId s q).startByte = q.startByte := by
  unfold updateRow
  split <;> exact ⟨rfl, rfl, rfl, rfl⟩

/-- Effect of one upsertSymbol on the live key set of any file: the new key
becomes live for the target file, and every previously live key stays live. -/
theorem upsertSymbol_liveKeys (db : CodeDb) (fileId : Nat) (s : NewSymbol)
    (fid : Nat) (k : String × String × Nat) :
    k ∈ liveKeys (upsertSymbol db fileId s).1 fid ↔
      (k ∈ liveKeys db fid ∨ (fid = fileId ∧ k = (s.name, s.kind, s.startByte))) := by
  rcases hf : db.symbols.find? (fun r => symKeyMatches r fileId s) with _ | r
  · simp only [upsertSymbol, hf]
    rw [liveKeys_mem, liveKeys_mem]
    constructor
    · rintro ⟨r, hr, hfid, hk⟩
      rw [List.mem_append, List.mem_singleton] at hr
      rcases hr with hr | hr
      · exact Or.inl ⟨r, hr, hfid, hk⟩
      · subst hr
        right
        exact ⟨hfid.symm, hk.symm⟩
    · rintro (⟨r, hr, hfid, hk⟩ | ⟨hfid, hk⟩)
      · exact ⟨r, by rw [List.mem_append]; exact Or.inl hr, hfid, hk⟩
      · refine ⟨_, by rw [List.mem_append, List.mem_singleton]; exact Or.inr rfl, ?_, ?_⟩
        · exact hfid.symm
        · rw [hk]
  · have hp := List.find?_some hf
    have hmem := List.mem_of_find?_eq_some hf
    simp only [symKeyMatches, Bool.and_eq_true, beq_iff_eq] at hp
    obtain ⟨⟨⟨hrfid, hrname⟩, hrkind⟩, hrsb⟩ := hp
    simp only [upsertSymbol, hf]
    rw [liveKeys_mem, liveKeys_mem]
    constructor
    · rintro ⟨r2, hr2, hfid, hk⟩
      rw [List.mem_map] at hr2
      obtain ⟨q, hq, hfq⟩ := hr2
      have hproj := upsertSymbol_update_proj fileId s q
      rw [hfq] at hproj
      left
      exact ⟨q, hq, by rw [← hproj.1]; exact hfid,
        by rw [← hproj.2.1, ← hproj.2.2.1, ← hproj.2.2.2]; exact hk⟩
    · rintro (⟨q, hq, hfid, hk⟩ | ⟨hfid, hk⟩)
      · have hproj := upsertSymbol_update_proj fileId s q
        refine ⟨_, List.mem_map_of_mem _ hq, ?_, ?_⟩
        · rw [hproj.1]; exact hfid
        · rw [hproj.2.1, hproj.2.2.1, hproj.2.2.2]; exact hk
      · have hproj := upsertSymbol_update_proj fileId s r
        refine ⟨_, List.mem_map_of_mem _ hmem, ?_, ?_⟩
        · rw [hproj.1, hrfid]; exact hfid.symm
        · rw [hproj.2.1, hproj.2.2.1, hproj.2.2.2, hrname, hrkind, hrsb, hk]

/-- Effect of the symbol loop of indexFile on the live key set: the union of
the previous live keys and the keys of the upserted symbols. -/
theorem indexFileLoop_liveKeys (fileId fid : Nat) (k : String × String × Nat) :
    ∀ (syms : List NewSymbol) (db : CodeDb),
      k ∈ liveKeys (indexFileLoop db fileId syms) fid ↔
        (k ∈ liveKeys db fid ∨
          (fid = fileId ∧ k ∈ syms.map (fun s => (s.name, s.kind, s.startByte)))) := by
  intro syms
  induction syms with
  | nil => intro db; simp [indexFileLoop]
  | cons s tl ih =>
    intro db
    rw [indexFileLoop, ih, upsertSymbol_liveKeys]
    simp only [List.map_cons, List.mem_cons]
    constructor
    · rintro ((h | ⟨h1, h2⟩) | ⟨h1, h2⟩)
      · exact Or.inl h
      · exact Or.inr ⟨h1, Or.inl h2⟩
      · exact Or.inr ⟨h1, Or.inr h2⟩
    · rintro (h | ⟨h1, h2 | h2⟩)
      · exact Or.inl (Or.inl h)
      · exact Or.inl (Or.inr ⟨h1, h2⟩)
      · exact Or.inr ⟨h1, h2⟩

/-- upsertFile does not touch the code_symbols table. -/
theorem upsertFile_symbols (db : CodeDb) (path sha : String) :
    (upsertFile db path sha).1.symbols = db.symbols := by
  rcases hf : db.files.find? (fun r => r.path == path) with _ | r <;>
    simp only [upsertFile, hf]

/-- C2, amended.  indexFile upserts the extracted symbols inside one
transaction (one atomic state transition in this model) but deletes nothing:
afterwards a key is live for the indexed file exactly when it was live before
or belongs to the new symbol list.  In particular stale keys from the
previous snapshot of the file survive re-indexing. -/
theorem C2_indexFile_keys (db : CodeDb) (path sha : String)
    (syms : List NewSymbol) (k : String × String × Nat) :
    k ∈ liveKeys (indexFile db path sha syms).1 (indexFile db path sha syms).2.1 ↔
      (k ∈ liveKeys db (indexFile db path sha syms).2.1 ∨
        k ∈ syms.map (fun s => (s.name, s.kind, s.startByte))) := by
  unfold indexFile
  rw [indexFileLoop_liveKeys]
  constructor
  · rintro (h | ⟨_, h⟩)
    · left
      rw [liveKeys_mem] at h ⊢
      rw [upsertFile_symbols] at h
      exact h
    · exact Or.inr h
  · rintro (h | h)
    · left
      rw [liveKeys_mem] at h ⊢
      rw [upsertFile_symbols]
      exact h
    · exact Or.inr ⟨rfl, h⟩

/-- A one-symbol file snapshot used in the C2 scenario. -/
def symA : NewSymbol := ⟨"function", "A", 0, 5, 1, 2, none, none, none, none⟩

/-- The replacement snapshot of the same file with a different symbol. -/
def symB : NewSymbol := ⟨"function", "B", 10, 15, 4, 6, none, none, none, none⟩

/-- C2, counterexample.  Index a file with symbol A, then re-index the same
file with only symbol B: the claim says the live symbol set is then exactly
the new snapshot, but the key of A is still live — indexFile performs no
delete, so the stale symbol survives. -/
theorem C2_counterexample :
    (("A", "function", 0) ∈
      liveKeys (indexFile (indexFile CodeDb.empty "a.ts" "sha1" [symA]).1
        "a.ts" "sha2" [symB]).1 1) ∧
    (("A", "function", 0) ∉
      [symB].map (fun s => (s.name, s.kind, s.startByte))) := by
  constructor
  · decide
  · decide

/-! ## Claim C3: fused score formula -/

/-- C3, counterexample.  The claim states a missing signal contributes
exactly 0.  In the fusion of handleSearchCode a candidate with lexical
relevance 1/2 and no vector hit scores
0.5 * 1/2 + 0.5 * (1 / (1 + 999)), not 0.5 * 1/2 + 0.5 * 0: the missing
vector signal is replaced by the sentinel distance 999 and contributes
1/2000. -/
theorem C3_counterexample :
    fuseRelevance (some (1 / 2)) none = 1 / 4 + 1 / 2000 ∧
    ¬ (fuseRelevance (some (1 / 2)) none = (1 / 2) * (1 / 2) + (1 / 2) * 0) := by
  have hv : fuseRelevance (some (1 / 2)) none = 1 / 4 + 1 / 2000 := by
    show (1 / 2) * jsOrElse (some (1 / 2)) 0
        + (1 / 2) * max 0 (1 / (1 + jsOrElse none 999)) = 1 / 4 + 1 / 2000
    rw [show jsOrElse (some (1 / 2)) 0 = (1 / 2 : ℚ) by rw [jsOrElse]; norm_num]
    rw [show jsOrElse none 999 = (999 : ℚ) from rfl]
    rw [show ((1 : ℚ) + 999) = 1000 by norm_num]
    rw [max_eq_right (by norm_num : (0 : ℚ) ≤ 1 / 1000)]
    norm_num
  refine ⟨hv, fun hc => ?_⟩
  rw [hv] at hc
  norm_num at hc

/-- C3, amended.  In the SQL joined CTE the fused score is exactly
alpha * vecScore + (1 - alpha) * lexScore with a missing signal contributing
0, so a candidate with no vector hit still ranks on
(1 - alpha) * lexScore alone; the command-level re-rank of handleSearchCode
instead uses fixed weights 1/2 and replaces a missing vector signal by the
sentinel distance 999, contributing (1/2) * (1/1000) rather than 0. -/
theorem C3_fusion (alpha : ℚ) (textHits vecHits : List (Nat × ℚ)) (id : Nat)
    (rel : Option ℚ) :
    (hybridScoreSQL alpha textHits vecHits id =
      alpha * ((lookupNorm distNorm vecHits id).getD 0)
        + (1 - alpha) * ((lookupNorm bm25Norm textHits id).getD 0)) ∧
    (lookupNorm distNorm vecHits id = none →
      hybridScoreSQL alpha textHits vecHits id =
        (1 - alpha) * ((lookupNorm bm25Norm textHits id).getD 0)) ∧
    (lookupNorm distNorm vecHits id = none ∧ lookupNorm bm25Norm textHits id = none →
      hybridScoreSQL alpha textHits vecHits id = 0) ∧
    fuseRelevance rel none = (1 / 2) * jsOrElse rel 0 + (1 / 2) * (1 / 1000) := by
  refine ⟨rfl, ?_, ?_, ?_⟩
  · intro hv
    rw [hybridScoreSQL, hv]
    simp
  · rintro ⟨hv, ht⟩
    rw [hybridScoreSQL, hv, ht]
    simp
  · show (1 / 2) * jsOrElse rel 0 + (1 / 2) * max 0 (1 / (1 + jsOrElse none 999)) = _
    rw [show jsOrElse none 999 = (999 : ℚ) from rfl]
    rw [show ((1 : ℚ) + 999) = 1000 by norm_num]
    rw [max_eq_right (by norm_num : (0 : ℚ) ≤ 1 / 1000)]

/-- C3, witness: the amended fusion facts at alpha = 3/5 with one lexical hit
for candidate 7 and no vector hits. -/
theorem C3_fusion_witness :
    (lookupNorm distNorm [] 7 = none) ∧
    hybridScoreSQL (3 / 5) [(7, 1)] [] 7 = (1 - 3 / 5) * (1 / 2) := by
  refine ⟨rfl, ?_⟩
  have h := (C3_fusion (3 / 5) [(7, 1)] [] 7 none).2.1 rfl
  have hl : lookupNorm bm25Norm [(7, 1)] 7 = some (1 / 2) := by
    simp [lookupNorm, List.find?, bm25Norm]
    norm_num
  rw [h, hl]
  simp

/-! ## Claim C4: normalization bounds and vanishing of the fused score -/

/-- C4, counterexample.  The claim states hybridScore = 0 only when both
signals are absent.  At alpha = 1 a candidate whose lexical signal is present
(raw rank 0, normalized score 1) and whose vector signal is absent receives
hybridScore = 1 * 0 + (1 - 1) * 1 = 0. -/
theorem C4_counterexample :
    hybridScoreSQL 1 [(5, 0)] [] 5 = 0 ∧
    lookupNorm bm25Norm [(5, 0)] 5 = some 1 := by
  have hl : lookupNorm bm25Norm [(5, 0)] 5 = some 1 := by
    simp [lookupNorm, List.find?, bm25Norm]
  refine ⟨?_, hl⟩
  rw [hybridScoreSQL, hl]
  show (1 : ℚ) * (lookupNorm distNorm [] 5).getD 0 + (1 - 1) * (some (1 : ℚ)).getD 0 = 0
  rw [show lookupNorm distNorm [] 5 = none from rfl]
  norm_num

/-- Any normalized lookup result over nonnegative raw values lies in the
half-open interval (0, 1]. -/
theorem lookupNorm_pos_le_one (hits : List (Nat × ℚ)) (id : Nat) (t : ℚ)
    (hnn : ∀ p ∈ hits, 0 ≤ p.2)
    (hl : lookupNorm (fun r => 1 / (1 + r)) hits id = some t) :
    0 < t ∧ t ≤ 1 := by
  unfold lookupNorm at hl
  rcases hf : hits.find? (fun r => r.1 == id) with _ | p
  · rw [hf] at hl; simp at hl
  · rw [hf] at hl
    simp only [Option.map_some', Option.some.injEq] at hl
    have hp := List.mem_of_find?_eq_some hf
    have h2 := hnn p hp
    have hpos : (0 : ℚ) < 1 + p.2 := by linarith
    constructor
    · rw [← hl]
      positivity
    · rw [← hl]
      rw [div_le_one hpos]
      linarith

/-- The normalized score of a signal is nonnegative (with a default of zero
for an absent one). -/
theorem lookupNorm_getD_nonneg (hits : List (Nat × ℚ)) (id : Nat)
    (hnn : ∀ p ∈ hits, 0 ≤ p.2) :
    0 ≤ (lookupNorm (fun r => 1 / (1 + r)) hits id).getD 0 := by
  rcases hl : lookupNorm (fun r => 1 / (1 + r)) hits id with _ | t
  · simp
  · simp only [Option.getD_some]
    exact (lookupNorm_pos_le_one hits id t hnn hl).1.le

/-- C4, amended.  Over nonnegative raw ranks and distances, a present signal
normalizes into (0, 1]; and for a mixing weight alpha strictly between 0 and
1, the fused score is 0 exactly when both signals are absent.  (At the
endpoint alpha = 1 the second part fails, as the counterexample shows.) -/
theorem C4_bounds (alpha : ℚ) (textHits vecHits : List (Nat × ℚ)) (id : Nat)
    (hth : ∀ p ∈ textHits, 0 ≤ p.2) (hvh : ∀ p ∈ vecHits, 0 ≤ p.2)
    (ha0 : 0 < alpha) (ha1 : alpha < 1) :
    (∀ t, lookupNorm bm25Norm textHits id = some t → 0 < t ∧ t ≤ 1) ∧
    (∀ v, lookupNorm distNorm vecHits id = some v → 0 < v ∧ v ≤ 1) ∧
    (hybridScoreSQL alpha textHits vecHits id = 0 ↔
      lookupNorm bm25Norm textHits id = none ∧
        lookupNorm distNorm vecHits id = none) := by
  have hbm : bm25Norm = fun r => 1 / (1 + r) := rfl
  have hdn : distNorm = fun r => 1 / (1 + r) := rfl
  refine ⟨?_, ?_, ?_, ?_⟩
  · intro t ht
    exact lookupNorm_pos_le_one textHits id t hth (hbm ▸ ht)
  · intro v hv
    exact lookupNorm_pos_le_one vecHits id v hvh (hdn ▸ hv)
  · intro h0
    by_contra hne
    rw [not_and_or] at hne
    have htn := lookupNorm_getD_nonneg textHits id hth
    have hvn := lookupNorm_getD_nonneg vecHits id hvh
    rw [← hbm] at htn
    rw [← hdn] at hvn
    rcases hne with hne | hne
    · rcases ht : lookupNorm bm25Norm textHits id with _ | t
      · exact hne ht
      · have hpos := (lookupNorm_pos_le_one textHits id t hth (hbm ▸ ht)).1
        rw [hybridScoreSQL, ht] at h0
        simp only [Option.getD_some] at h0
        nlinarith
    · rcases hv : lookupNorm distNorm vecHits id with _ | v
      · exact hne hv
      · have hpos := (lookupNorm_pos_le_one vecHits id v hvh (hdn ▸ hv)).1
        rw [hybridScoreSQL, hv] at h0
        simp only [Option.getD_some] at h0
        nlinarith
  · rintro ⟨ht, hv⟩
    rw [hybridScoreSQL, ht, hv]
    simp

/-- C4, witness: the bounds theorem applied at alpha = 1/2 with a lexical hit
of raw rank 2 for candidate 1 and no vector hits: the present signal
normalizes to 1/3 in (0, 1], and the fused score does not vanish. -/
theorem C4_bounds_witness :
    ((0 : ℚ) < 1 / 3 ∧ (1 / 3 : ℚ) ≤ 1) ∧
    ¬ (hybridScoreSQL (1 / 2) [(1, 2)] [] 1 = 0) := by
  have hl : lookupNorm bm25Norm [(1, 2)] 1 = some (1 / 3) := by
    simp [lookupNorm, List.find?, bm25Norm]
    norm_num
  have h := C4_bounds (1 / 2) [(1, 2)] [] 1
    (by intro p hp; simp at hp; rw [hp]; norm_num)
    (by intro p hp; simp at hp)
    (by norm_num) (by norm_num)
  constructor
  · exact h.1 (1 / 3) hl
  · intro h0
    have := (h.2.2.mp h0).1
    rw [hl] at this
    exact Option.noConfusion this

/-! ## Lemmas about the decimal key codec -/

/-- A literal matches its own prefix of an appended list. -/
theorem lit_append (s t : List Char) : lit s (s ++ t) = some t := by
  induction s with
  | nil => rfl
  | cons c cs ih => simp [lit, ih]

/-- Deleting the first occurrence of a nonempty pattern from a list that
starts with the pattern leaves the tail. -/
theorem replaceFirst_append (sub t : List Char) (h : sub ≠ []) :
    replaceFirst sub (sub ++ t) = t := by
  cases sub with
  | nil => exact absurd rfl h
  | cons c cs =>
    show replaceFirst (c :: cs) (c :: (cs ++ t)) = t
    rw [replaceFirst]
    rw [show (c :: (cs ++ t)) = (c :: cs) ++ t from rfl, lit_append]

/-- A decimal digit character decodes to its value. -/
theorem digitVal_digitCh (d : Nat) (h : d < 10) : digitVal (digitCh d) = some d := by
  interval_cases d <;> rfl

/-- A decimal rendering is never empty. -/
theorem natDigits_ne_nil (n : Nat) : natDigits n ≠ [] := by
  rw [natDigits]
  split
  · simp
  · simp

/-- Every character of a decimal rendering is a digit. -/
theorem natDigits_digits (n : Nat) : ∀ c ∈ natDigits n, (digitVal c).isSome = true := by
  induction n using Nat.strong_induction_on with
  | _ n ih =>
    rw [natDigits]
    split
    · intro c hc
      rw [List.mem_singleton] at hc
      subst hc
      rw [digitVal_digitCh n (by omega)]
      rfl
    · intro c hc
      rw [List.mem_append] at hc
      rcases hc with hc | hc
      · exact ih (n / 10) (Nat.div_lt_self (by omega) (by norm_num)) c hc
      · rw [List.mem_singleton] at hc
        subst hc
        rw [digitVal_digitCh (n % 10) (Nat.mod_lt _ (by norm_num))]
        rfl

/-- Folding the digit accumulator over a decimal rendering recovers the
number (shifted under the accumulator). -/
theorem foldl_natDigits (n : Nat) : ∀ acc : Nat,
    (natDigits n).foldl (fun a c => a * 10 + (digitVal c).getD 0) acc
      = acc * 10 ^ (natDigits n).length + n := by
  induction n using Nat.strong_induction_on with
  | _ n ih =>
    intro acc
    rw [natDigits]
    split
    · rename_i h
      simp only [List.foldl, digitVal_digitCh n h, Option.getD_some, List.length_singleton]
      rw [pow_one]
    · rename_i h
      rw [List.foldl_append]
      rw [ih (n / 10) (Nat.div_lt_self (by omega) (by norm_num)) acc]
      simp only [List.foldl, digitVal_digitCh (n % 10) (Nat.mod_lt _ (by norm_num)),
        Option.getD_some, List.length_append, List.length_singleton]
      have hmod : 10 * (n / 10) + n % 10 = n := Nat.div_add_mod n 10
      calc (acc * 10 ^ (natDigits (n / 10)).length + n / 10) * 10 + n % 10
          = acc * (10 ^ (natDigits (n / 10)).length * 10) + (10 * (n / 10) + n % 10) := by
            ring
        _ = acc * 10 ^ ((natDigits (n / 10)).length + 1) + n := by
            rw [hmod, pow_succ]

/-- takeWhile keeps a list all of whose elements satisfy the predicate. -/
theorem takeWhile_of_all {α : Type} (p : α → Bool) :
    ∀ l : List α, (∀ c ∈ l, p c = true) → l.takeWhile p = l := by
  intro l
  induction l with
  | nil => intro _; rfl
  | cons c cs ih =>
    intro h
    rw [List.takeWhile_cons_of_pos (h c (List.mem_cons_self c cs))]
    rw [ih (fun x hx => h x (List.mem_cons_of_mem c hx))]

/-- parseInt recovers the number from its decimal rendering. -/
theorem parseDigits_natDigits (n : Nat) : parseDigits (natDigits n) = some n := by
  rw [parseDigits, takeWhile_of_all _ (natDigits n) (natDigits_digits n)]
  rw [if_neg (fun hemp => natDigits_ne_nil n (List.isEmpty_iff.mp hemp))]
  rw [foldl_natDigits n 0]
  simp

/-- The external to internal to external round trip of the key codec is the
identity. -/
theorem decodeKey_memKey (n : Nat) : decodeKey (memKey n) = some n := by
  rw [decodeKey, memKey, replaceFirst_append _ _ (by simp)]
  exact parseDigits_natDigits n

/-! ## Claims C1 and C9: dimension guard and ensureTable behaviour -/

/-- A vec backend whose table has been established at dimension 384. -/
def vecReady : VecBackend.State := VecBackend.ensureTable VecBackend.loadedFresh 384

/-- A vss backend whose table has been established at dimension 384. -/
def vssReady : VssBackend.State := VssBackend.ensureTable VssBackend.loadedFresh 384

/-- C1, counterexample.  The claim quantifies over every vector backend
implementation.  VssBackend.upsert performs no dimension validation and its
catch block swallows every error: upserting a 3-dimensional vector against
the established 384-dimensional vss table does not throw a dimension error,
and the row is written (count becomes 1 rather than staying 0). -/
theorem C1_counterexample :
    (VssBackend.upsert vssReady 7 [1, 2, 3]).2 ≠ VecBackend.UpsertOutcome.threwDimension ∧
    VssBackend.count (VssBackend.upsert vssReady 7 [1, 2, 3]).1 = 1 := by
  constructor
  · decide
  · decide

/-- C1, amended.  VecBackend.upsert validates the dimension: on a loaded
backend with recorded dimension d, a vector of any other length makes the
call throw the dimension error and leave the state (hence the count)
unchanged.  VssBackend.upsert, by contrast, never throws at all: it performs
no dimension check and its catch block swallows every error. -/
theorem C1_dimension_guard (st : VecBackend.State) (id : Int) (v : List ℚ) (d : Nat)
    (hl : st.loaded = true) (hd : st.dim = some d) (hv : v.length ≠ d) :
    VecBackend.upsert st id v = (st, VecBackend.UpsertOutcome.threwDimension) ∧
    VecBackend.count (VecBackend.upsert st id v).1 = VecBackend.count st ∧
    ∀ (st2 : VssBackend.State) (id2 : Int) (v2 : List ℚ),
      (VssBackend.upsert st2 id2 v2).2 = VecBackend.UpsertOutcome.completed := by
  have hmain : VecBackend.upsert st id v = (st, VecBackend.UpsertOutcome.threwDimension) := by
    obtain ⟨lo, dm, it, vtd, rows⟩ := st
    dsimp only at hl hd
    subst hl
    subst hd
    simp [VecBackend.upsert, hv]
  refine ⟨hmain, by rw [hmain], ?_⟩
  intro st2 id2 v2
  rw [VssBackend.upsert]
  split
  · rfl
  · cases st2.dim <;> rfl

/-- C1, witness: the dimension guard at the concrete 384-dimensional backends
and a 3-dimensional vector. -/
theorem C1_dimension_guard_witness :
    VecBackend.upsert vecReady 7 [1, 2, 3] = (vecReady, VecBackend.UpsertOutcome.threwDimension) ∧
    VecBackend.count (VecBackend.upsert vecReady 7 [1, 2, 3]).1 = VecBackend.count vecReady ∧
    (VssBackend.upsert vssReady 7 [1, 2, 3]).2 = VecBackend.UpsertOutcome.completed := by
  have h := C1_dimension_guard vecReady 7 [1, 2, 3] 384 (by decide) (by decide) (by decide)
  exact ⟨h.1, h.2.1, h.2.2 vssReady 7 [1, 2, 3]⟩

/-- C9, counterexample.  The claim states a subsequent ensureTable call with
a different dimension leaves the recorded table dimension unchanged.  After
establishing 384 and calling ensureTable 512, the recorded dimension that
later upsert and query calls validate against is 512, not 384. -/
theorem C9_counterexample :
    (VecBackend.ensureTable vecReady 512).dim ≠ some 384 ∧
    (VecBackend.ensureTable vecReady 512).dim = some 512 := by
  constructor
  · decide
  · decide

/-- C9, amended.  ensureTable with the already-established dimension is a
no-op on both backends.  A call with a different dimension is not a silent
migration of the table — the virtual table keeps its creation dimension and
the rows and key mapping are untouched — but it is not a no-op either: the
recorded dimension used by later upsert and query validation is updated to
the new value. -/
theorem C9_ensureTable (st : VecBackend.State) (st2 : VssBackend.State) (d d2 : Nat)
    (hd : st.dim = some d) (htd : st.vecTableDim = some d)
    (hd2 : st2.dim = some d) (htd2 : st2.vssTableDim = some d)
    (hne : d2 ≠ d) :
    VecBackend.ensureTable st d = st ∧
    VssBackend.ensureTable st2 d = st2 ∧
    (st.loaded = true →
      (VecBackend.ensureTable st d2).dim = some d2 ∧
      (VecBackend.ensureTable st d2).vecTableDim = st.vecTableDim ∧
      (VecBackend.ensureTable st d2).items = st.items ∧
      (VecBackend.ensureTable st d2).vecRows = st.vecRows) ∧
    (st2.loaded = true →
      (VssBackend.ensureTable st2 d2).dim = some d2 ∧
      (VssBackend.ensureTable st2 d2).vssTableDim = st2.vssTableDim ∧
      (VssBackend.ensureTable st2 d2).rows = st2.rows) := by
  refine ⟨?_, ?_, ?_, ?_⟩
  · simp [VecBackend.ensureTable, hd]
  · simp [VssBackend.ensureTable, hd2]
  · intro hl
    obtain ⟨lo, dm, it, vtd, rows⟩ := st
    dsimp only at hl hd htd ⊢
    subst hl
    subst hd
    subst htd
    simp [VecBackend.ensureTable, hne, Ne.symm hne]
  · intro hl2
    obtain ⟨lo2, dm2, vtd2, rows2⟩ := st2
    dsimp only at hl2 hd2 htd2 ⊢
    subst hl2
    subst hd2
    subst htd2
    simp [VssBackend.ensureTable, hne, Ne.symm hne]

/-- C9, witness: the ensureTable facts at the established 384-dimensional
backends and the new dimension 512. -/
theorem C9_ensureTable_witness :
    VecBackend.ensureTable vecReady 384 = vecReady ∧
    (VecBackend.ensureTable vecReady 512).dim = some 512 ∧
    (VecBackend.ensureTable vecReady 512).vecTableDim = vecReady.vecTableDim := by
  have h := C9_ensureTable vecReady vssReady 384 512
    (by decide) (by decide) (by decide) (by decide) (by decide)
  exact ⟨h.1, (h.2.2.1 (by decide)).1, (h.2.2.1 (by decide)).2.1⟩

/-! ## Claim C10: key mapping stability and id round trip -/

/-- Repeating getOrCreateIdForKey with the same key returns the same internal
id and leaves the mapping table unchanged. -/
theorem getOrCreateIdForKey_stable (t : ItemsTable) (k : List Char) :
    VecBackend.getOrCreateIdForKey (VecBackend.getOrCreateIdForKey t k).1 k
      = ((VecBackend.getOrCreateIdForKey t k).1, (VecBackend.getOrCreateIdForKey t k).2) := by
  rcases hf : t.findId k with _ | i
  · have hfind : t.rows.find? (fun r => r.2 == k) = none := by
      rcases hfo : t.rows.find? (fun r => r.2 == k) with _ | p
      · exact hfo
      · rw [ItemsTable.findId, hfo] at hf
        simp at hf
    have hf2 : ItemsTable.findId ⟨t.rows ++ [(t.nextId, k)], t.nextId + 1⟩ k
        = some t.nextId := by
      rw [ItemsTable.findId]
      show ((t.rows ++ [(t.nextId, k)]).find? (fun r => r.2 == k)).map (fun r => r.1)
        = some t.nextId
      rw [List.find?_append, hfind]
      simp [List.find?]
    simp only [VecBackend.getOrCreateIdForKey, hf, hf2]
  · simp only [VecBackend.getOrCreateIdForKey, hf]

/-- The fully evaluated backend state after the first upsert of external id e
into the established empty backend. -/
theorem upsert_vecReady_eq (e : Nat) (v : List ℚ) (hv : v.length = 384) :
    VecBackend.upsert vecReady (e : Int) v
      = (⟨true, some 384, ⟨[(1, memKey e)], 2⟩, some 384, [(1, v)]⟩,
         VecBackend.UpsertOutcome.completed) := by
  have hready : vecReady = ⟨true, some 384, ItemsTable.empty, some 384, []⟩ := rfl
  rw [hready]
  rw [VecBackend.upsert]
  rw [if_neg (fun hc => hc rfl)]
  show (if v.length ≠ 384 then _ else _) = _
  rw [if_neg (by omega)]
  rw [if_neg (by exact Int.not_lt.mpr (Int.natCast_nonneg e))]
  show ((⟨_, _, _, _, VecBackend.listUpsert []
      (VecBackend.getOrCreateIdForKey ItemsTable.empty (memKey (e : Int).toNat)).2 v⟩ :
        VecBackend.State),
    VecBackend.UpsertOutcome.completed) = _
  rw [show ((e : Int).toNat) = e from Int.toNat_natCast e]
  rfl

/-- C10.  KeyMapping round trip: resolving the same external id again after
an upsert yields the same internal integer (get-or-create is stable and the
upsert stores exactly the get-or-create mapping), and queryNearest maps the
internal hit back through the key, returning the original external id —
external to internal to external is the identity. -/
theorem C10_keymapping (t : ItemsTable) (k : List Char) (e : Nat) (v q : List ℚ)
    (hv : v.length = 384) (hq : q.length = 384) :
    VecBackend.getOrCreateIdForKey (VecBackend.getOrCreateIdForKey t k).1 k
      = ((VecBackend.getOrCreateIdForKey t k).1, (VecBackend.getOrCreateIdForKey t k).2) ∧
    decodeKey (memKey e) = some e ∧
    VecBackend.queryNearest (VecBackend.upsert vecReady (e : Int) v).1 q 10
      = [(some e, VecBackend.l2sq q v)] := by
  refine ⟨getOrCreateIdForKey_stable t k, decodeKey_memKey e, ?_⟩
  rw [upsert_vecReady_eq e v hv]
  rw [VecBackend.queryNearest]
  rw [if_neg (fun hc => hc rfl)]
  show (if q.length ≠ 384 then _ else _) = _
  rw [if_neg (by omega)]
  show [(decodeKey (memKey e), VecBackend.l2sq q v)] = [(some e, VecBackend.l2sq q v)]
  rw [decodeKey_memKey e]

/-- C10, witness: the round trip at external id 5 with concrete
384-dimensional vectors. -/
theorem C10_keymapping_witness :
    (List.replicate 384 (1 : ℚ)).length = 384 ∧
    VecBackend.queryNearest
        (VecBackend.upsert vecReady ((5 : Nat) : Int) (List.replicate 384 (1 : ℚ))).1
        (List.replicate 384 (0 : ℚ)) 10
      = [(some 5, VecBackend.l2sq (List.replicate 384 (0 : ℚ)) (List.replicate 384 (1 : ℚ)))] :=
  ⟨by rw [List.length_replicate],
   (C10_keymapping ItemsTable.empty [] 5 (List.replicate 384 (1 : ℚ))
      (List.replicate 384 (0 : ℚ)) (by rw [List.length_replicate])
      (by rw [List.length_replicate])).2.2⟩

/-! ## Claim C7: backend self-test policy -/

/-- The sqlite-vec loader always runs the self-test before accepting a
backend, and a database exception during the self-test makes it return none. -/
theorem vecTryLoad_selfTest (env : ProbeEnv) :
    ((VecBackend.tryLoad env).1.isSome = true →
      ProbeEvent.vecSelfTest ∈ (VecBackend.tryLoad env).2) ∧
    (env.vecSelfTestDbOk = false → (VecBackend.tryLoad env).1 = none) := by
  obtain ⟨p, me, ml, npe, npl, ok, v0e, v0l, ve, vl⟩ := env
  cases p <;> cases v0e <;> cases v0l <;> cases ve <;> cases vl <;>
    cases me <;> cases ml <;> cases npe <;> cases npl <;> cases ok <;>
      exact ⟨by decide, by decide⟩

/-- The sqlite-vss loader never runs any self-test. -/
theorem vssTryLoad_no_selfTest (env : ProbeEnv) :
    ProbeEvent.vecSelfTest ∉ (VssBackend.tryLoad env).2 := by
  obtain ⟨p, me, ml, npe, npl, ok, v0e, v0l, ve, vl⟩ := env
  cases p <;> cases v0e <;> cases v0l <;> cases ve <;> cases vl <;>
    cases me <;> cases ml <;> cases npe <;> cases npl <;> cases ok <;> decide

/-- An environment in which the vss extension chain exists and loads. -/
def envVssOk : ProbeEnv :=
  ⟨Platform.linux, false, false, false, false, true, true, true, true, true⟩

/-- C7, counterexample.  The claim quantifies over every native backend
candidate.  When the sqlite-vss binaries exist and load, VssBackend.tryLoad
returns a loaded (available) backend whose probe trace contains no self-test
event: the backend is accepted immediately after the extension load. -/
theorem C7_counterexample :
    ((VssBackend.tryLoad envVssOk).1.map VssBackend.State.loaded) = some true ∧
    ProbeEvent.vecSelfTest ∉ (VssBackend.tryLoad envVssOk).2 := by
  constructor
  · decide
  · decide

/-- C7, amended.  Only the sqlite-vec candidate self-tests: whenever
VecBackend.tryLoad accepts a backend its trace contains the self-test, and a
database exception during the self-test makes it return none (the backend is
marked unavailable); VssBackend.tryLoad never runs a self-test and accepts a
backend on load success alone. -/
theorem C7_selftest_policy (env : ProbeEnv) :
    ((VecBackend.tryLoad env).1.isSome = true →
      ProbeEvent.vecSelfTest ∈ (VecBackend.tryLoad env).2) ∧
    (env.vecSelfTestDbOk = false → (VecBackend.tryLoad env).1 = none) ∧
    ProbeEvent.vecSelfTest ∉ (VssBackend.tryLoad env).2 :=
  ⟨(vecTryLoad_selfTest env).1, (vecTryLoad_selfTest env).2, vssTryLoad_no_selfTest env⟩

/-- An environment in which the manual sqlite-vec binary exists, loads and
self-tests cleanly. -/
def envVecOk : ProbeEnv :=
  ⟨Platform.win32, true, true, false, false, true, false, false, false, false⟩

/-- An environment identical to envVecOk except that the database raises
during the self-test. -/
def envVecSelfTestFails : ProbeEnv :=
  ⟨Platform.win32, true, true, false, false, false, false, false, false, false⟩

/-- C7, witness: the policy applied at the two concrete vec environments. -/
theorem C7_selftest_policy_witness :
    ((VecBackend.tryLoad envVecOk).1.isSome = true ∧
      ProbeEvent.vecSelfTest ∈ (VecBackend.tryLoad envVecOk).2) ∧
    (envVecSelfTestFails.vecSelfTestDbOk = false ∧
      (VecBackend.tryLoad envVecSelfTestFails).1 = none) :=
  ⟨⟨by decide, (C7_selftest_policy envVecOk).1 (by decide)⟩,
   ⟨by decide, (C7_selftest_policy envVecSelfTestFails).2.1 (by decide)⟩⟩

/-! ## Claim C8: behaviour without a native backend -/

/-- An environment in which no native binary exists at all. -/
def envNoNative : ProbeEnv :=
  ⟨Platform.linux, false, false, false, false, true, false, false, false, false⟩

/-- C8, counterexample.  The claim states that with no native backend the
selected fallback reports isAvailable() = true.  In the source the unified
backend keeps activeBackend = null: isAvailable() reports false (while
getBackendType() still labels the state local-js). -/
theorem C8_counterexample :
    (UnifiedVectorBackend.tryLoad envNoNative).1.active = none ∧
    UnifiedVectorBackend.isAvailable (UnifiedVectorBackend.tryLoad envNoNative).1 = false ∧
    UnifiedVectorBackend.getBackendType (UnifiedVectorBackend.tryLoad envNoNative).1
      = "local-js" := by
  refine ⟨rfl, rfl, rfl⟩

/-- C8, amended.  When no native candidate loads, UnifiedVectorBackend keeps
no active backend and labels itself local-js; isAvailable() reports false,
and the operations degrade without failing: upsert is a no-op that never
throws, queryNearest returns the empty list and count returns 0.  No
brute-force scan backend exists behind the local-js label. -/
theorem C8_degraded (u : UnifiedState) (hu : u.active = none) (q : List ℚ) (k : Nat)
    (id : Int) (v : List ℚ) :
    UnifiedVectorBackend.isAvailable u = false ∧
    UnifiedVectorBackend.getBackendType u = "local-js" ∧
    UnifiedVectorBackend.queryNearest u q k = [] ∧
    UnifiedVectorBackend.count u = 0 ∧
    UnifiedVectorBackend.upsert u id v = (u, VecBackend.UpsertOutcome.completed) ∧
    ∀ env : ProbeEnv, env.manualVecExists = false → env.npmVecExists = false →
      env.vssExists = false → (UnifiedVectorBackend.tryLoad env).1.active = none := by
  obtain ⟨a⟩ := u
  dsimp only at hu
  subst hu
  refine ⟨rfl, rfl, rfl, rfl, rfl, ?_⟩
  intro env h1 h2 h3
  obtain ⟨p, me, ml, npe, npl, ok, v0e, v0l, ve, vl⟩ := env
  dsimp only at h1 h2 h3
  subst h1
  subst h2
  subst h3
  cases p <;> cases ml <;> cases npl <;> cases ok <;> cases v0e <;> cases v0l <;>
    cases vl <;> decide

/-- C8, witness: the degraded behaviour at the unified backend produced by
probing an environment with no native binaries. -/
theorem C8_degraded_witness :
    ((UnifiedVectorBackend.tryLoad envNoNative).1.active = none) ∧
    UnifiedVectorBackend.queryNearest (UnifiedVectorBackend.tryLoad envNoNative).1 [] 5 = [] ∧
    UnifiedVectorBackend.count (UnifiedVectorBackend.tryLoad envNoNative).1 = 0 :=
  ⟨rfl,
   (C8_degraded (UnifiedVectorBackend.tryLoad envNoNative).1 rfl [] 5 0 []).2.2.1,
   (C8_degraded (UnifiedVectorBackend.tryLoad envNoNative).1 rfl [] 5 0 []).2.2.2.1⟩

end SMem
